import Mathlib

/-!
Verification of the sequence-execution core of the caldera orchestrator.

The definitions below are a shallow embedding of the Python source:

* `filterFacts` / `matchesPattern` embed `_filter_facts` and `_matches_pattern`
  (src/orchestrator/cli/main.py).  `_matches_pattern` builds a regex from the
  pattern by first escaping only `.` and then turning `*` into `.*`, and runs
  an anchored `re.match(f'^{regex}$', trait)`.  Every other character passes
  through live, so `matchesPattern` parses the generated regex into the
  fragment those transformed patterns can produce — literal atoms, the `.`
  wildcard (which does not match a newline), and the `*`, `+`, `?` quantifiers
  on the preceding atom, with `$` also matching just before one trailing
  newline — and runs it with Python matching semantics.  Patterns producing
  constructs outside this fragment (`(`, `[`, `|`, `\`, `^`, `$`, brace
  quantifiers, stacked quantifiers such as the lazy `*?`; for several of these
  the code raises `re.error`) are outside the embedded domain and map to a
  non-match.  The claim's own reading of a pattern — every character literal
  except `*`, which matches zero or more characters — is kept separately as
  `globSpecMatches` and proved to coincide with the source matcher exactly on
  quantifier-free, metacharacter-free patterns and newline-free traits.

* `runStepLoop` embeds the `while retry_count <= max_retries and not
  step_success` retry loop of `sequence_campaign`.  The remote behaviour of
  each submitted attempt is scripted as a list of `AttemptResult`s, one per
  loop iteration that reaches the job-submission call; `.outOfFuel` marks a
  run whose script ended while the loop would have kept going (the loop can
  genuinely diverge: the fallback branch decrements the retry counter).
  An `asyncio.TimeoutError` (poll budget exceeded) is the `.pollTimeout`
  constructor and is caught by the first `except` clause; every other failure
  (transport/5xx error, 4xx rejection, the `out_of_time` and `run_one_link`
  lifecycle states, which the code raises as plain `Exception`s) is caught by
  the generic `except Exception` clause.

* `resolveStep` / `runSeq` / `sequenceCampaign` embed the per-step epilogue
  (append to `completed_steps` / `failed_steps`, critical abort) and the
  `for idx, step in enumerate(sequence['steps'], 1)` loop.

* `recordFacts` embeds the fact-merging loop over a report's facts, and
  `jobStatus` embeds the terminal status assignment of
  `SequencerService._run_sequence_job`
  (src/plugins/sequencer/app/sequencer_service.py line 159), driven by the
  boolean `len(failed_steps) == 0` returned by `sequence_campaign`.

Python `step.get('on_fail')` and `step.get('fallback_adversary_id')` may be
absent; absence and the empty string are behaviourally identical in the source
(only equality tests against `'fallback'`/`'skip'` and truthiness are used),
so both are embedded as `""`.
-/

namespace CalderaSeq

/-- A trait/value observation, the `{'trait': ..., 'value': ...}` dicts of the
source. -/
structure Fact where
  trait : String
  value : String
deriving DecidableEq, Repr

/-- An atom of the regex `_matches_pattern` generates: a literal character
(from an ordinary pattern character or the escaped `\.`), or the regex `.`
wildcard (only produced by `*` → `.*`), which in Python matches any character
except a newline. -/
inductive RTok where
  | lit (c : Char)
  | anyc
deriving DecidableEq, Repr

/-- A quantifier on an atom of the generated regex: exactly once, `*` (zero or
more), `+` (one or more) or `?` (zero or one). -/
inductive RQuant where
  | one
  | star
  | plus
  | opt
deriving DecidableEq, Repr

/-- One quantified atom of the generated regex. -/
structure RElem where
  atom : RTok
  quant : RQuant
deriving DecidableEq, Repr

/-- Regex metacharacters the transformation leaves live and the embedded
fragment does not cover (`^ $ ( ) [ ] | \` and the two braces). -/
def regexMeta : List Char :=
  ['^', '$', '(', ')', '[', ']', '|', '\\', Char.ofNat 123, Char.ofNat 125]

/-- Parse a pattern into the quantified atoms of the regex generated by
`pattern.replace('.', r'\.').replace('*', '.*')`: `.` becomes a literal dot,
`*` becomes the `.`-wildcard starred, a live `+` or `?` quantifies the
preceding unquantified atom (with nothing to quantify, or stacked on another
quantifier, Python raises `re.error` or uses lazy/possessive semantics —
outside the fragment), other live metacharacters are outside the fragment,
and any remaining character is a literal atom. -/
def pyElemsAux : List Char → List RElem → Option (List RElem)
  | [], acc => some acc.reverse
  | c :: cs, acc =>
    if c = '.' then pyElemsAux cs (⟨RTok.lit '.', RQuant.one⟩ :: acc)
    else if c = '*' then pyElemsAux cs (⟨RTok.anyc, RQuant.star⟩ :: acc)
    else if c = '+' ∨ c = '?' then
      match acc with
      | [] => none
      | e :: acc2 =>
        match e.quant with
        | RQuant.one =>
          pyElemsAux cs (⟨e.atom, if c = '+' then RQuant.plus else RQuant.opt⟩ :: acc2)
        | _ => none
    else if regexMeta.contains c then none
    else pyElemsAux cs (⟨RTok.lit c, RQuant.one⟩ :: acc)

/-- The quantified atoms of the regex `_matches_pattern` builds, when the
pattern stays inside the embedded fragment. -/
def pyElems (pattern : List Char) : Option (List RElem) := pyElemsAux pattern []

/-- What a single atom matches: a literal its character, the `.` wildcard any
character except a newline (Python default). -/
def atomMatch : RTok → Char → Bool
  | RTok.lit c, t => c = t
  | RTok.anyc, t => !(t = '\n')

/-- The suffixes reachable by consuming zero or more characters matching an
atom from the front: the remainders a starred or plussed atom can leave. -/
def starSuffixes (a : RTok) : List Char → List (List Char)
  | [] => [[]]
  | t :: ts => (t :: ts) :: (if atomMatch a t then starSuffixes a ts else [])

/-- Anchored matching of the generated regex against a character list with
Python semantics: `re.match` with a leading `^`, and the trailing `$` matching
at the end of the string or just before one final newline. -/
def reMatch : List RElem → List Char → Bool
  | [], ts => ts.isEmpty || ts == ['\n']
  | e :: ps, ts =>
    match e.quant with
    | RQuant.one =>
      match ts with
      | [] => false
      | t :: ts2 => atomMatch e.atom t && reMatch ps ts2
    | RQuant.opt =>
      reMatch ps ts ||
        (match ts with
         | [] => false
         | t :: ts2 => atomMatch e.atom t && reMatch ps ts2)
    | RQuant.star => (starSuffixes e.atom ts).any (fun s => reMatch ps s)
    | RQuant.plus =>
      match ts with
      | [] => false
      | t :: ts2 => atomMatch e.atom t && (starSuffixes e.atom ts2).any (fun s => reMatch ps s)

/-- Embedding of `_matches_pattern(trait, pattern)`: run the generated regex,
anchored, with Python matching semantics.  A pattern outside the embedded
fragment maps to a non-match (the source would raise `re.error` or use regex
features not modelled here). -/
def matchesPattern (trait pattern : String) : Bool :=
  match pyElems pattern.toList with
  | some es => reMatch es trait.toList
  | none => false

/-- The inner loop of `_filter_facts` for one pattern: every stored trait that
matches contributes all of its accumulated values, in store order. -/
def matchedFacts (facts : List (String × List String)) (pattern : String) : List Fact :=
  facts.flatMap (fun tv =>
    if matchesPattern tv.1 pattern then tv.2.map (fun v => ⟨tv.1, v⟩) else [])

/-- Embedding of `_filter_facts(facts, filters)`: with no filters, flatten the
whole store; otherwise iterate the patterns in order, each contributing its
matching facts. -/
def filterFacts (facts : List (String × List String)) (filters : List String) : List Fact :=
  if filters = [] then
    facts.flatMap (fun tv => tv.2.map (fun v => ⟨tv.1, v⟩))
  else
    filters.flatMap (fun p => matchedFacts facts p)

/-- Embedding of the per-fact merge: `if trait not in global_facts:
global_facts[trait] = []` then `global_facts[trait].append(value)`.  The store
is the insertion-ordered dict `global_facts`. -/
def addFact : List (String × List String) → String → String → List (String × List String)
  | [], t, v => [(t, [v])]
  | (t', vs) :: rest, t, v =>
    if t' = t then (t', vs ++ [v]) :: rest else (t', vs) :: addFact rest t v

/-- Embedding of the report-merging loop: each fact with a non-empty trait and
value is appended under its trait key (Python truthiness of `trait and value`). -/
def recordFacts (store : List (String × List String)) (new : List Fact) :
    List (String × List String) :=
  new.foldl (fun s f => if f.trait ≠ "" ∧ f.value ≠ "" then addFact s f.trait f.value else s) store

/-- Outcome of one submitted attempt of a step, classified by which `except`
clause of `sequence_campaign` handles it.  `.pollTimeout` is
`asyncio.TimeoutError` (poll budget exceeded, or a request-level timeout
re-raised by `_api_request`); the remaining failure constructors are all plain
`Exception`s caught by the generic handler: a transport/5xx error, a 4xx
rejection, and the `out_of_time` / `run_one_link` lifecycle states. -/
inductive AttemptResult where
  | success (facts : List Fact)
  | pollTimeout
  | transportError
  | rejected
  | outOfTime
  | runOneLink
deriving DecidableEq, Repr

/-- The human-readable `str(e)` recorded when a failure is classified. -/
def errString : AttemptResult → String
  | AttemptResult.success _ => ""
  | AttemptResult.pollTimeout => "Operation exceeded timeout"
  | AttemptResult.transportError => "API request error"
  | AttemptResult.rejected => "API request failed"
  | AttemptResult.outOfTime => "Operation timed out (state: out_of_time)"
  | AttemptResult.runOneLink => "Operation requires manual intervention (state: run_one_link)"

/-- Exponential backoff: `min(2 ** retry_count, 30)`. -/
def backoff (n : Nat) : Nat := min (2 ^ n) 30

/-- How the retry loop of one step ended.  `.exhausted` is the loop condition
`retry_count <= max_retries` turning false; `.skippedEarly` is the in-loop
`break` of the `on_fail == 'skip'` branch; `.outOfFuel` means the scripted
environment ended while the loop would have continued. -/
inductive StepLoopResult where
  | completed (facts : List Fact)
  | skippedEarly (err : String)
  | exhausted
  | outOfFuel
deriving DecidableEq, Repr

/-- Observable trace of one step's retry loop: how it ended, how many
operations were submitted, and the backoff delays slept between retries. -/
structure StepLoopOut where
  result : StepLoopResult
  submits : Nat
  backoffs : List Nat
deriving DecidableEq, Repr

/-- Embedding of the `while retry_count <= max_retries and not step_success`
loop of `sequence_campaign`, one scripted `AttemptResult` per iteration that
submits an operation.  `onFail` and `fb` are `step.get('on_fail')` and
`step.get('fallback_adversary_id')` (absent embedded as `""`), `adv` the
current `step['adversary_id']` (mutated by the fallback branch). -/
def runStepLoop (onFail fb : String) (maxRetries : Nat) :
    Nat → String → List AttemptResult → StepLoopOut
  | rc, _, [] =>
    if maxRetries < rc then ⟨StepLoopResult.exhausted, 0, []⟩
    else ⟨StepLoopResult.outOfFuel, 0, []⟩
  | rc, adv, r :: rest =>
    if maxRetries < rc then ⟨StepLoopResult.exhausted, 0, []⟩
    else
      match r with
      | AttemptResult.success facts => ⟨StepLoopResult.completed facts, 1, []⟩
      | AttemptResult.pollTimeout =>
        let out := runStepLoop onFail fb maxRetries (rc + 1) adv rest
        if rc + 1 ≤ maxRetries then
          ⟨out.result, out.submits + 1, backoff (rc + 1) :: out.backoffs⟩
        else ⟨out.result, out.submits + 1, out.backoffs⟩
      | other =>
        if onFail = "fallback" ∧ fb ≠ "" then
          let out := runStepLoop onFail fb maxRetries rc fb rest
          ⟨out.result, out.submits + 1, out.backoffs⟩
        else if onFail = "skip" then
          ⟨StepLoopResult.skippedEarly (errString other), 1, []⟩
        else
          let out := runStepLoop onFail fb maxRetries (rc + 1) adv rest
          if rc + 1 ≤ maxRetries then
            ⟨out.result, out.submits + 1, backoff (rc + 1) :: out.backoffs⟩
          else ⟨out.result, out.submits + 1, out.backoffs⟩

/-- One step of the loaded sequence spec, with the fields `sequence_campaign`
reads.  Absent `on_fail` / `fallback_adversary_id` are embedded as `""`;
`critical` is `step.get('critical', False)`. -/
structure StepSpec where
  name : String
  adversary_id : String
  on_fail : String
  fallback_adversary_id : String
  critical : Bool
deriving DecidableEq, Repr

/-- One entry of `completed_steps` / `failed_steps` (the remote operation id
is not modelled). -/
structure Outcome where
  step : Nat
  name : String
  status : String
  error : String
deriving DecidableEq, Repr

/-- The mutable run state of `sequence_campaign`: the fact store, the two
outcome lists, the 1-based indices of steps whose loop was entered, whether a
critical `break` happened, and whether some step's script ran out. -/
structure SeqState where
  facts : List (String × List String)
  completed : List Outcome
  failed : List Outcome
  attempted : List Nat
  aborted : Bool
  stuck : Bool
deriving DecidableEq, Repr

/-- State at the top of `sequence_campaign`: empty store and empty lists. -/
def initState : SeqState := ⟨[], [], [], [], false, false⟩

/-- Embedding of one iteration of the `for idx, step in ...` body: run the
retry loop, then append the step's outcome and apply the critical-abort
check.  A successful step merges its report facts first.  Note the epilogue
`if not step_success and step.get('on_fail') != 'skip'` — a step with
`on_fail == 'skip'` that exhausts its retries appends nothing at all. -/
def resolveStep (maxRetries idx : Nat) (step : StepSpec) (script : List AttemptResult)
    (st : SeqState) : SeqState :=
  let out := runStepLoop step.on_fail step.fallback_adversary_id maxRetries 0
    step.adversary_id script
  let st1 : SeqState := { st with attempted := st.attempted ++ [idx] }
  match out.result with
  | StepLoopResult.completed facts =>
    { st1 with facts := recordFacts st1.facts facts,
               completed := st1.completed ++ [⟨idx, step.name, "completed", ""⟩] }
  | StepLoopResult.skippedEarly err =>
    { st1 with failed := st1.failed ++ [⟨idx, step.name, "skipped", err⟩] }
  | StepLoopResult.exhausted =>
    if step.on_fail ≠ "skip" then
      { st1 with failed := st1.failed ++ [⟨idx, step.name, "failed", "Max retries exceeded"⟩],
                 aborted := st1.aborted || step.critical }
    else st1
  | StepLoopResult.outOfFuel => { st1 with stuck := true }

/-- Embedding of the step loop of `sequence_campaign`: steps run strictly in
order, and a critical failure breaks out of the loop (a stuck run stops where
its script ended). -/
def runSeq (maxRetries : Nat) : Nat → SeqState → List (StepSpec × List AttemptResult) → SeqState
  | _, st, [] => st
  | idx, st, sc :: rest =>
    let st2 := resolveStep maxRetries idx sc.1 sc.2 st
    if st2.aborted || st2.stuck then st2 else runSeq maxRetries (idx + 1) st2 rest

/-- Snapshots of the run state after each processed step, in order. -/
def seqTrace (maxRetries : Nat) :
    Nat → SeqState → List (StepSpec × List AttemptResult) → List SeqState
  | _, _, [] => []
  | idx, st, sc :: rest =>
    let st2 := resolveStep maxRetries idx sc.1 sc.2 st
    if st2.aborted || st2.stuck then [st2]
    else st2 :: seqTrace maxRetries (idx + 1) st2 rest

/-- A whole run of `sequence_campaign`, steps enumerated from 1. -/
def sequenceCampaign (maxRetries : Nat) (steps : List (StepSpec × List AttemptResult)) :
    SeqState :=
  runSeq maxRetries 1 initState steps

/-- The boolean `sequence_campaign` returns: `len(failed_steps) == 0`. -/
def runSuccess (st : SeqState) : Bool := st.failed.length = 0

/-- The terminal status `_run_sequence_job` records:
`'completed' if success else 'failed'`. -/
def jobStatus (st : SeqState) : String :=
  if runSuccess st then "completed" else "failed"

/-! ### Helper lemmas about fact filtering -/

/-- Counting pairs built from one trait: only that trait's own values count. -/
lemma count_map_mk (t t2 v : String) (vs : List String) :
    List.count (⟨t, v⟩ : Fact) (vs.map (fun w => (⟨t2, w⟩ : Fact))) =
      if t2 = t then List.count v vs else 0 := by
  induction vs with
  | nil => simp
  | cons w ws ihw =>
    by_cases h2 : t2 = t
    · subst h2
      by_cases hwv : w = v
      · subst hwv; simp [List.count_cons, ihw, beq_iff_eq]
      · simp [List.count_cons, ihw, beq_iff_eq, hwv, Fact.mk.injEq]
    · simp [List.count_cons, ihw, beq_iff_eq, h2, Fact.mk.injEq]

/-- Counting one pattern's contribution: a matching trait contributes its full
flattened count, a non-matching trait nothing. -/
lemma count_matchedFacts (facts : List (String × List String)) (p t v : String) :
    List.count (⟨t, v⟩ : Fact) (matchedFacts facts p) =
      if matchesPattern t p = true then List.count (⟨t, v⟩ : Fact) (filterFacts facts []) else 0 := by
  induction facts with
  | nil => simp [matchedFacts, filterFacts]
  | cons tv rest ih =>
    obtain ⟨t2, vs⟩ := tv
    have hexp : filterFacts ((t2, vs) :: rest) [] =
        vs.map (fun v => (⟨t2, v⟩ : Fact)) ++ filterFacts rest [] := by
      simp [filterFacts]
    have hmf : matchedFacts ((t2, vs) :: rest) p =
        (if matchesPattern t2 p = true then vs.map (fun v => (⟨t2, v⟩ : Fact)) else []) ++
          matchedFacts rest p := by
      simp [matchedFacts]
    have hcnt : List.count (⟨t, v⟩ : Fact) (vs.map (fun v => (⟨t2, v⟩ : Fact))) =
        if t2 = t then List.count v vs else 0 := count_map_mk t t2 v vs
    rw [hexp, hmf, List.count_append, List.count_append, ih]
    by_cases h2 : t2 = t
    · subst h2
      by_cases hm : matchesPattern t2 p = true
      · simp [hm, hcnt]
      · simp [hm, hcnt]
    · by_cases hm2 : matchesPattern t2 p = true
      · by_cases hm : matchesPattern t p = true
        · simp [hm2, hm, hcnt, h2]
        · simp [hm2, hm, hcnt, h2]
      · by_cases hm : matchesPattern t p = true
        · simp [hm2, hm, hcnt, h2]
        · simp [hm2, hm, hcnt, h2]

/-- Counting across a whole pattern list: each matching pattern contributes the
trait's full flattened count once. -/
lemma count_flatMap_matchedFacts (facts : List (String × List String)) (t v : String) :
    ∀ fs : List String,
      List.count (⟨t, v⟩ : Fact) (fs.flatMap (fun p => matchedFacts facts p)) =
        fs.countP (fun p => matchesPattern t p) *
          List.count (⟨t, v⟩ : Fact) (filterFacts facts []) := by
  intro fs
  induction fs with
  | nil => simp
  | cons p ps ih =>
    rw [List.flatMap_cons, List.count_append, ih, count_matchedFacts, List.countP_cons]
    by_cases hm : matchesPattern t p = true
    · simp [hm, Nat.add_mul]; ring
    · simp [hm]



/-! ### Coincidence of the generated regex with the spec's glob reading -/

/-- Claim C10: exporting with a concatenated non-empty filter list is the
concatenation of the two exports, and a trait matching k of the supplied
patterns contributes each of its values k times. -/
theorem claim_c10_export_concat_and_duplicates (facts : List (String × List String))
    (fs1 fs2 : List String) (h1 : fs1 ≠ []) (h2 : fs2 ≠ []) (t v : String) :
    filterFacts facts (fs1 ++ fs2) = filterFacts facts fs1 ++ filterFacts facts fs2
    ∧ ∀ fs : List String, fs ≠ [] →
        List.count (⟨t, v⟩ : Fact) (filterFacts facts fs) =
          fs.countP (fun p => matchesPattern t p) *
            List.count (⟨t, v⟩ : Fact) (filterFacts facts []) := by
  constructor
  · have hne : fs1 ++ fs2 ≠ [] := fun h => h1 (List.append_eq_nil.mp h).1
    unfold filterFacts
    rw [if_neg hne, if_neg h1, if_neg h2]
    exact List.flatMap_append fs1 fs2 _
  · intro fs hfs
    conv_lhs => rw [filterFacts, if_neg hfs]
    exact count_flatMap_matchedFacts facts t v fs

/-- Witness for C10 at a concrete store with overlapping patterns. -/
theorem claim_c10_export_concat_and_duplicates_witness :
    filterFacts [("host.ip", ["1"])] (["host.*"] ++ ["host.ip"]) =
      filterFacts [("host.ip", ["1"])] ["host.*"] ++ filterFacts [("host.ip", ["1"])] ["host.ip"]
    ∧ List.count (⟨"host.ip", "1"⟩ : Fact) (filterFacts [("host.ip", ["1"])] ["host.*", "host.ip"]) =
        List.countP (fun p => matchesPattern "host.ip" p) ["host.*", "host.ip"] *
          List.count (⟨"host.ip", "1"⟩ : Fact) (filterFacts [("host.ip", ["1"])] []) := by
  have h := claim_c10_export_concat_and_duplicates
    [("host.ip", ["1"])] ["host.*"] ["host.ip"] (by simp) (by simp) "host.ip" "1"
  exact ⟨h.1, h.2 ["host.*", "host.ip"] (by simp)⟩

/-! ### Case equations for a resolved step -/

/-- A successfully completed step merges its facts and appends one completed
outcome. -/
lemma resolveStep_completed_eq (mr idx : Nat) (step : StepSpec)
    (script : List AttemptResult) (st : SeqState) (f : List Fact)
    (hres : (runStepLoop step.on_fail step.fallback_adversary_id mr 0
      step.adversary_id script).result = StepLoopResult.completed f) :
    resolveStep mr idx step script st =
      { st with facts := recordFacts st.facts f,
                completed := st.completed ++ [⟨idx, step.name, "completed", ""⟩],
                attempted := st.attempted ++ [idx] } := by
  simp [resolveStep, hres]

/-- A step skipped inside the loop appends one skipped outcome to the failed
list. -/
lemma resolveStep_skipped_eq (mr idx : Nat) (step : StepSpec)
    (script : List AttemptResult) (st : SeqState) (e : String)
    (hres : (runStepLoop step.on_fail step.fallback_adversary_id mr 0
      step.adversary_id script).result = StepLoopResult.skippedEarly e) :
    resolveStep mr idx step script st =
      { st with failed := st.failed ++ [⟨idx, step.name, "skipped", e⟩],
                attempted := st.attempted ++ [idx] } := by
  simp [resolveStep, hres]

/-- A step whose retry loop exhausted its attempts with `on_fail != skip`
appends exactly one failed outcome and aborts iff the step is critical. -/
lemma resolveStep_exhausted_spec (mr idx : Nat) (step : StepSpec)
    (script : List AttemptResult) (st : SeqState)
    (hres : (runStepLoop step.on_fail step.fallback_adversary_id mr 0
      step.adversary_id script).result = StepLoopResult.exhausted)
    (hsk : step.on_fail ≠ "skip") :
    resolveStep mr idx step script st =
      { st with attempted := st.attempted ++ [idx],
                failed := st.failed ++ [⟨idx, step.name, "failed", "Max retries exceeded"⟩],
                aborted := st.aborted || step.critical } := by
  simp [resolveStep, hres, hsk]

/-- A step with `on_fail == skip` whose retry loop exhausted its attempts
appends nothing: the epilogue check excludes it. -/
lemma resolveStep_exhausted_skip_eq (mr idx : Nat) (step : StepSpec)
    (script : List AttemptResult) (st : SeqState)
    (hres : (runStepLoop step.on_fail step.fallback_adversary_id mr 0
      step.adversary_id script).result = StepLoopResult.exhausted)
    (hsk : step.on_fail = "skip") :
    resolveStep mr idx step script st = { st with attempted := st.attempted ++ [idx] } := by
  have hres2 : (runStepLoop "skip" step.fallback_adversary_id mr 0
      step.adversary_id script).result = StepLoopResult.exhausted := by
    rw [← hsk]
    exact hres
  simp [resolveStep, hsk, hres2]

/-- A step whose script ran out leaves the run stuck. -/
lemma resolveStep_outOfFuel_eq (mr idx : Nat) (step : StepSpec)
    (script : List AttemptResult) (st : SeqState)
    (hres : (runStepLoop step.on_fail step.fallback_adversary_id mr 0
      step.adversary_id script).result = StepLoopResult.outOfFuel) :
    resolveStep mr idx step script st =
      { st with attempted := st.attempted ++ [idx], stuck := true } := by
  simp [resolveStep, hres]

/-! ### Helper lemmas about fact-store monotonicity -/

/-- Unfolds the no-filter export of a cons cell of the store. -/
lemma filterFacts_nil_cons (t2 : String) (vs : List String)
    (rest : List (String × List String)) :
    filterFacts ((t2, vs) :: rest) [] =
      vs.map (fun w => (⟨t2, w⟩ : Fact)) ++ filterFacts rest [] := by
  simp [filterFacts]

/-- Appending one value under a trait permutes the flattened export with one
more pair in front. -/
lemma exportAll_addFact (st : List (String × List String)) (t v : String) :
    List.Perm (filterFacts (addFact st t v) []) ((⟨t, v⟩ : Fact) :: filterFacts st []) := by
  induction st with
  | nil =>
    have h0 : filterFacts (addFact [] t v) [] = [(⟨t, v⟩ : Fact)] := by
      simp [addFact, filterFacts]
    rw [h0]
    exact List.Perm.refl _
  | cons tv rest ih =>
    obtain ⟨t2, vs⟩ := tv
    by_cases h2 : t2 = t
    · subst h2
      have ha : addFact ((t2, vs) :: rest) t2 v = (t2, vs ++ [v]) :: rest := by
        simp [addFact]
      rw [ha, filterFacts_nil_cons, filterFacts_nil_cons, List.map_append]
      rw [List.append_assoc, List.map_singleton, List.singleton_append]
      exact List.perm_middle
    · have ha : addFact ((t2, vs) :: rest) t v = (t2, vs) :: addFact rest t v := by
        simp [addFact, h2]
      rw [ha, filterFacts_nil_cons, filterFacts_nil_cons]
      exact (List.Perm.append_left _ ih).trans List.perm_middle

/-- The flattened export only grows when a value is appended. -/
lemma exportAll_subperm_addFact (st : List (String × List String)) (t v : String) :
    (filterFacts st []).Subperm (filterFacts (addFact st t v) []) :=
  ((List.sublist_cons_self _ _).subperm).trans (exportAll_addFact st t v).symm.subperm

/-- The flattened export only grows when a report's facts are merged. -/
lemma exportAll_subperm_recordFacts (new : List Fact) :
    ∀ st : List (String × List String),
      (filterFacts st []).Subperm (filterFacts (recordFacts st new) []) := by
  induction new with
  | nil => intro st; exact List.Subperm.refl _
  | cons f fs ih =>
    intro st
    by_cases hc : f.trait ≠ "" ∧ f.value ≠ ""
    · have hr : recordFacts st (f :: fs) = recordFacts (addFact st f.trait f.value) fs := by
        simp [recordFacts, hc]
      rw [hr]
      exact (exportAll_subperm_addFact st f.trait f.value).trans (ih _)
    · have hr : recordFacts st (f :: fs) = recordFacts st fs := by
        simp [recordFacts, hc]
      rw [hr]
      exact ih st

/-- One processed step never shrinks the flattened export. -/
lemma resolveStep_export_subperm (mr idx : Nat) (step : StepSpec)
    (script : List AttemptResult) (st : SeqState) :
    (filterFacts st.facts []).Subperm
      (filterFacts (resolveStep mr idx step script st).facts []) := by
  cases hres : (runStepLoop step.on_fail step.fallback_adversary_id mr 0
      step.adversary_id script).result with
  | completed f =>
    rw [resolveStep_completed_eq mr idx step script st f hres]
    exact exportAll_subperm_recordFacts f st.facts
  | skippedEarly e =>
    rw [resolveStep_skipped_eq mr idx step script st e hres]
  | exhausted =>
    by_cases hsk : step.on_fail = "skip"
    · rw [resolveStep_exhausted_skip_eq mr idx step script st hres hsk]
    · rw [resolveStep_exhausted_spec mr idx step script st hres hsk]
  | outOfFuel =>
    rw [resolveStep_outOfFuel_eq mr idx step script st hres]

/-- The trace of a non-empty step list always starts with the state after the
first step. -/
lemma seqTrace_cons_shape (mr idx : Nat) (st : SeqState)
    (sc : StepSpec × List AttemptResult) (rest : List (StepSpec × List AttemptResult)) :
    seqTrace mr idx st (sc :: rest) =
      resolveStep mr idx sc.1 sc.2 st ::
        (if (resolveStep mr idx sc.1 sc.2 st).aborted || (resolveStep mr idx sc.1 sc.2 st).stuck
         then []
         else seqTrace mr (idx + 1) (resolveStep mr idx sc.1 sc.2 st) rest) := by
  by_cases hc : (resolveStep mr idx sc.1 sc.2 st).aborted || (resolveStep mr idx sc.1 sc.2 st).stuck
  · simp [seqTrace, hc]
  · simp [seqTrace, hc]

/-- The first trace entry's export contains the starting export. -/
lemma seqTrace_head_subperm (mr : Nat) (steps : List (StepSpec × List AttemptResult))
    (idx : Nat) (st : SeqState) (h : 0 < (seqTrace mr idx st steps).length) :
    (filterFacts st.facts []).Subperm
      (filterFacts ((seqTrace mr idx st steps).get ⟨0, h⟩).facts []) := by
  cases steps with
  | nil => simp [seqTrace] at h
  | cons sc rest =>
    have hget : (seqTrace mr idx st (sc :: rest)).get ⟨0, h⟩ =
        resolveStep mr idx sc.1 sc.2 st := by
      simp [seqTrace_cons_shape]
    rw [hget]
    exact resolveStep_export_subperm mr idx sc.1 sc.2 st

/-! ### Claim C9: fact-store monotonicity -/

/-- Whatever state heads a trace, its export contains the starting export. -/
lemma seqTrace_head?_subperm (mr : Nat) (steps : List (StepSpec × List AttemptResult))
    (idx : Nat) (st : SeqState) (b : SeqState)
    (hb : (seqTrace mr idx st steps).head? = some b) :
    (filterFacts st.facts []).Subperm (filterFacts b.facts []) := by
  cases steps with
  | nil => simp [seqTrace] at hb
  | cons sc rest =>
    rw [seqTrace_cons_shape] at hb
    simp only [List.head?_cons, Option.some.injEq] at hb
    rw [← hb]
    exact resolveStep_export_subperm mr idx sc.1 sc.2 st

/-- Consecutive per-step snapshots of a run form a chain under export
containment. -/
lemma seqTrace_chain (mr : Nat) :
    ∀ (steps : List (StepSpec × List AttemptResult)) (idx : Nat) (st : SeqState),
      List.Chain'
        (fun a b : SeqState => (filterFacts a.facts []).Subperm (filterFacts b.facts []))
        (seqTrace mr idx st steps) := by
  intro steps
  induction steps with
  | nil => intro idx st; simp [seqTrace]
  | cons sc rest ih =>
    intro idx st
    rw [seqTrace_cons_shape]
    by_cases hc : (resolveStep mr idx sc.1 sc.2 st).aborted || (resolveStep mr idx sc.1 sc.2 st).stuck
    · rw [if_pos hc]
      exact List.chain'_singleton _
    · rw [if_neg hc, List.chain'_cons']
      exact ⟨fun b hb => seqTrace_head?_subperm mr rest (idx + 1) _ b hb, ih (idx + 1) _⟩

/-- Claim C9: within a run the fact store is monotonic — the multiset of
trait/value pairs exported with no filters after step `i` contains the
multiset exported after the previous step (consecutive entries of the trace
of per-step snapshots). -/
theorem claim_c9_fact_store_monotonic (mr : Nat)
    (steps : List (StepSpec × List AttemptResult)) (idx : Nat) (st : SeqState) (i : Nat)
    (h1 : i < (seqTrace mr idx st steps).length)
    (h2 : i + 1 < (seqTrace mr idx st steps).length) :
    (↑(filterFacts ((seqTrace mr idx st steps).get ⟨i, h1⟩).facts []) : Multiset Fact) ≤
      ↑(filterFacts ((seqTrace mr idx st steps).get ⟨i + 1, h2⟩).facts []) := by
  rw [Multiset.coe_le]
  have hch := seqTrace_chain mr steps idx st
  rw [List.chain'_iff_get] at hch
  exact hch i (by omega)

/-- Witness for C9 on a concrete two-step run whose steps both record facts. -/
theorem claim_c9_fact_store_monotonic_witness :
    (↑(filterFacts ((seqTrace 3 1 initState
        [(⟨"A", "a", "", "", false⟩, [AttemptResult.success [⟨"t", "1"⟩]]),
         (⟨"B", "b", "", "", false⟩, [AttemptResult.success [⟨"t", "2"⟩]])]).get
        ⟨0, by decide⟩).facts []) : Multiset Fact) ≤
      ↑(filterFacts ((seqTrace 3 1 initState
        [(⟨"A", "a", "", "", false⟩, [AttemptResult.success [⟨"t", "1"⟩]]),
         (⟨"B", "b", "", "", false⟩, [AttemptResult.success [⟨"t", "2"⟩]])]).get
        ⟨0 + 1, by decide⟩).facts []) :=
  claim_c9_fact_store_monotonic 3
    [(⟨"A", "a", "", "", false⟩, [AttemptResult.success [⟨"t", "1"⟩]]),
     (⟨"B", "b", "", "", false⟩, [AttemptResult.success [⟨"t", "2"⟩]])]
    1 initState 0 (by decide) (by decide)

/-! ### Claims C2, C4, C5, C7: the retry loop -/

/-- Counterexample to claim C2: a `run_one_link` (needs-intervention) or 4xx
(rejected) failure of a critical step is resubmitted under the default policy
(two submits) and the run is not aborted — the failure is not treated as
non-retryable. -/
theorem claim_c2_counterexample :
    (runStepLoop "" "" 3 0 "a" [AttemptResult.runOneLink, AttemptResult.success []]).submits = 2
    ∧ (runStepLoop "" "" 3 0 "a" [AttemptResult.rejected, AttemptResult.success []]).submits = 2
    ∧ (sequenceCampaign 3
        [(⟨"s", "a", "", "", true⟩,
          [AttemptResult.runOneLink, AttemptResult.success []])]).aborted = false
    ∧ (sequenceCampaign 3
        [(⟨"s", "a", "", "", true⟩,
          [AttemptResult.runOneLink, AttemptResult.success []])]).completed.length = 1 := by
  decide

/-- Claim C2 as amended: 4xx rejections and `run_one_link` failures take the
generic failure path — skipped immediately only when `on_fail == skip`,
substituted when `on_fail == fallback` with a fallback configured, and
otherwise resubmitted after a backoff while attempts remain. -/
theorem claim_c2_amended_generic_path (fb adv : String) (mr : Nat) (f : List Fact)
    (rest : List AttemptResult) (r : AttemptResult)
    (hr : r = AttemptResult.rejected ∨ r = AttemptResult.runOneLink)
    (hmr : 0 < mr) :
    runStepLoop "skip" fb mr 0 adv (r :: rest) =
        ⟨StepLoopResult.skippedEarly (errString r), 1, []⟩
    ∧ runStepLoop "retry" "" mr 0 adv (r :: AttemptResult.success f :: rest) =
        ⟨StepLoopResult.completed f, 2, [2]⟩
    ∧ (fb ≠ "" → runStepLoop "fallback" fb mr 0 adv (r :: AttemptResult.success f :: rest) =
        ⟨StepLoopResult.completed f, 2, []⟩) := by
  have hnl : ¬ mr < 1 := Nat.not_lt.mpr hmr
  rcases hr with hr | hr <;> subst hr <;>
    exact ⟨by simp [runStepLoop, errString],
      by simp [runStepLoop, hmr, hnl, backoff],
      fun hfb => by simp [runStepLoop, hfb, hnl]⟩

/-- Witness for the amended C2 at concrete inputs. -/
theorem claim_c2_amended_generic_path_witness :
    runStepLoop "skip" "f2" 3 0 "a" [AttemptResult.rejected] =
        ⟨StepLoopResult.skippedEarly (errString AttemptResult.rejected), 1, []⟩
    ∧ runStepLoop "retry" "" 3 0 "a"
        [AttemptResult.rejected, AttemptResult.success []] =
        ⟨StepLoopResult.completed [], 2, [2]⟩
    ∧ ("f2" ≠ "" → runStepLoop "fallback" "f2" 3 0 "a"
        [AttemptResult.rejected, AttemptResult.success []] =
        ⟨StepLoopResult.completed [], 2, []⟩) :=
  claim_c2_amended_generic_path "f2" "a" 3 [] [] AttemptResult.rejected (Or.inl rfl) (by decide)

/-- Counterexample to claim C4: a transport error hitting a step with
`on_fail == skip` on its first attempt (attempt 1 of max_retries 3) is not
retried — the step is skipped immediately. -/
theorem claim_c4_counterexample :
    runStepLoop "skip" "" 3 0 "a" [AttemptResult.transportError] =
      ⟨StepLoopResult.skippedEarly "API request error", 1, []⟩ ∧ (1 : Nat) ≤ 3 := by
  decide

/-- Claim C4 as amended: only poll-budget timeouts (`asyncio.TimeoutError`)
are retried with backoff irrespective of `on_fail`; other transient failures
(transport errors, the `out_of_time` state) skip immediately on the first
failure when `on_fail == skip`, and are retried with backoff otherwise. -/
theorem claim_c4_amended_retry_vs_skip (adv : String) (mr : Nat) (f : List Fact)
    (rest : List AttemptResult) (hmr : 0 < mr) :
    runStepLoop "skip" "" mr 0 adv
        (AttemptResult.pollTimeout :: AttemptResult.success f :: rest) =
      ⟨StepLoopResult.completed f, 2, [2]⟩
    ∧ runStepLoop "skip" "" mr 0 adv (AttemptResult.transportError :: rest) =
        ⟨StepLoopResult.skippedEarly "API request error", 1, []⟩
    ∧ runStepLoop "skip" "" mr 0 adv (AttemptResult.outOfTime :: rest) =
        ⟨StepLoopResult.skippedEarly "Operation timed out (state: out_of_time)", 1, []⟩
    ∧ runStepLoop "retry" "" mr 0 adv
        (AttemptResult.transportError :: AttemptResult.success f :: rest) =
      ⟨StepLoopResult.completed f, 2, [2]⟩ := by
  have hnl : ¬ mr < 1 := Nat.not_lt.mpr hmr
  exact ⟨by simp [runStepLoop, hmr, hnl, backoff],
    by simp [runStepLoop, errString],
    by simp [runStepLoop, errString],
    by simp [runStepLoop, hmr, hnl, backoff]⟩

/-- Witness for the amended C4 at concrete inputs. -/
theorem claim_c4_amended_retry_vs_skip_witness :
    runStepLoop "skip" "" 3 0 "a"
        (AttemptResult.pollTimeout :: AttemptResult.success [] :: []) =
      ⟨StepLoopResult.completed [], 2, [2]⟩
    ∧ runStepLoop "skip" "" 3 0 "a" (AttemptResult.transportError :: []) =
        ⟨StepLoopResult.skippedEarly "API request error", 1, []⟩
    ∧ runStepLoop "skip" "" 3 0 "a" (AttemptResult.outOfTime :: []) =
        ⟨StepLoopResult.skippedEarly "Operation timed out (state: out_of_time)", 1, []⟩
    ∧ runStepLoop "retry" "" 3 0 "a"
        (AttemptResult.transportError :: AttemptResult.success [] :: []) =
      ⟨StepLoopResult.completed [], 2, [2]⟩ :=
  claim_c4_amended_retry_vs_skip "a" 3 [] [] (by decide)

/-- Once the counter passes `max_retries`, a block of poll-timeout failures
drives the loop to exhaustion: each one increments the counter and consults
no policy. -/
lemma runStepLoop_pollTimeout_exhausts (onFail fb : String) (mr : Nat) :
    ∀ (k rc : Nat) (adv : String) (rest : List AttemptResult), rc + k = mr + 1 →
      (runStepLoop onFail fb mr rc adv
        (List.replicate k AttemptResult.pollTimeout ++ rest)).result =
      StepLoopResult.exhausted := by
  intro k
  induction k with
  | zero =>
    intro rc adv rest h
    have hlt : mr < rc := by omega
    cases rest with
    | nil => simp [runStepLoop, hlt]
    | cons r rs => simp [runStepLoop, hlt]
  | succ k ih =>
    intro rc adv rest h
    have hrc : ¬ mr < rc := by omega
    rw [List.replicate_succ, List.cons_append]
    simp only [runStepLoop, if_neg hrc]
    by_cases h2 : rc + 1 ≤ mr
    · rw [if_pos h2]
      exact ih (rc + 1) adv rest (by omega)
    · rw [if_neg h2]
      exact ih (rc + 1) adv rest (by omega)

/-- Counterexample to claim C5: a poll-budget timeout (`asyncio.TimeoutError`,
the spec's TimedOut) of a step with `on_fail == fallback` and a configured
fallback is not substituted and does consume a retry slot — with
`max_retries = 0` the single slot is spent and the loop exhausts, and with
`max_retries = 1` the retry waits a backoff, while the same script with a
transport error completes for free via the substitution. -/
theorem claim_c5_counterexample :
    (runStepLoop "fallback" "f2" 0 0 "a"
        [AttemptResult.pollTimeout, AttemptResult.success []]).result =
      StepLoopResult.exhausted
    ∧ runStepLoop "fallback" "f2" 1 0 "a"
        [AttemptResult.pollTimeout, AttemptResult.success []] =
      ⟨StepLoopResult.completed [], 2, [2]⟩
    ∧ runStepLoop "fallback" "f2" 0 0 "a"
        [AttemptResult.transportError, AttemptResult.success []] =
      ⟨StepLoopResult.completed [], 2, []⟩ := by
  decide

/-- Claim C5 as amended: only generic-exception transient failures (transport
errors, 4xx, `out_of_time`, `run_one_link`) of a step with
`on_fail == fallback` and a configured fallback substitute the fallback
adversary and resubmit without consuming a retry slot — any number of them
still completes, and the recursive state keeps the same attempt counter with
the fallback substituted; poll-budget timeouts (`asyncio.TimeoutError`)
always consume a retry slot with no substitution, so `max_retries + 1` of
them exhaust the step even with a fallback configured. -/
theorem claim_c5_amended_fallback_generic_only (fb adv : String) (mr : Nat)
    (f : List Fact) (rest : List AttemptResult) (hfb : fb ≠ "") :
    (∀ n : Nat,
      runStepLoop "fallback" fb mr 0 adv
          (List.replicate n AttemptResult.transportError ++ (AttemptResult.success f :: rest)) =
        ⟨StepLoopResult.completed f, n + 1, []⟩)
    ∧ (∀ (rc : Nat) (adv2 : String) (rest2 : List AttemptResult) (r : AttemptResult),
        rc ≤ mr →
        (r = AttemptResult.transportError ∨ r = AttemptResult.rejected ∨
          r = AttemptResult.outOfTime ∨ r = AttemptResult.runOneLink) →
        runStepLoop "fallback" fb mr rc adv2 (r :: rest2) =
          { runStepLoop "fallback" fb mr rc fb rest2 with
              submits := (runStepLoop "fallback" fb mr rc fb rest2).submits + 1 })
    ∧ (∀ rest2 : List AttemptResult,
        (runStepLoop "fallback" fb mr 0 adv
          (List.replicate (mr + 1) AttemptResult.pollTimeout ++ rest2)).result =
        StepLoopResult.exhausted) := by
  refine ⟨?_, ?_, ?_⟩
  · intro n
    induction n generalizing adv with
    | zero => simp [runStepLoop]
    | succ n ih =>
      rw [List.replicate_succ, List.cons_append]
      simp [runStepLoop, hfb, ih fb]
  · intro rc adv2 rest2 r hrc hr
    have hnl : ¬ mr < rc := Nat.not_lt.mpr hrc
    rcases hr with hr | hr | hr | hr <;> subst hr <;> simp [runStepLoop, hfb, hnl]
  · intro rest2
    exact runStepLoop_pollTimeout_exhausts "fallback" fb mr (mr + 1) 0 adv rest2 (by omega)

/-- Witness for the amended C5: seven transient failures of a fallback step
with `max_retries = 0` still complete (8 submits, no slots consumed), while a
single poll timeout exhausts the same step. -/
theorem claim_c5_amended_fallback_generic_only_witness :
    runStepLoop "fallback" "f2" 0 0 "a"
        (List.replicate 7 AttemptResult.transportError ++ (AttemptResult.success [] :: [])) =
      ⟨StepLoopResult.completed [], 8, []⟩
    ∧ (runStepLoop "fallback" "f2" 0 0 "a"
        (List.replicate (0 + 1) AttemptResult.pollTimeout ++ [])).result =
      StepLoopResult.exhausted :=
  ⟨(claim_c5_amended_fallback_generic_only "f2" "a" 0 [] [] (by decide)).1 7,
   (claim_c5_amended_fallback_generic_only "f2" "a" 0 [] [] (by decide)).2.2 []⟩

/-- Claim C7: every backoff delay recorded by the retry loop is
`min(2 ^ attempt_number, 30)` with `1 <= attempt_number <= max_retries`, and
for attempt numbers 1 through 5 the delays are exactly 2, 4, 8, 16, 30. -/
theorem claim_c7_backoff_values (onFail fb : String) (mr rc : Nat) (adv : String)
    (script : List AttemptResult) (b : Nat)
    (hb : b ∈ (runStepLoop onFail fb mr rc adv script).backoffs) :
    (∃ a, 1 ≤ a ∧ a ≤ mr ∧ b = min (2 ^ a) 30)
    ∧ (runStepLoop "retry" "" 5 0 "x"
        (List.replicate 5 AttemptResult.pollTimeout ++ [AttemptResult.success []])).backoffs =
      [2, 4, 8, 16, 30] := by
  refine ⟨?_, by decide⟩
  induction script generalizing rc adv with
  | nil =>
    by_cases hm : mr < rc <;> simp [runStepLoop, hm] at hb
  | cons r rest ihs =>
    by_cases hm : mr < rc
    · simp [runStepLoop, hm] at hb
    · cases r with
      | success facts => simp [runStepLoop, hm] at hb
      | pollTimeout =>
        simp only [runStepLoop, if_neg hm, apply_ite StepLoopOut.backoffs] at hb
        by_cases h2 : rc + 1 ≤ mr
        · rw [if_pos h2] at hb
          rcases List.mem_cons.mp hb with hb | hb
          · exact ⟨rc + 1, Nat.succ_le_succ (Nat.zero_le rc), h2, hb⟩
          · exact ihs (rc + 1) adv hb
        · rw [if_neg h2] at hb
          exact ihs (rc + 1) adv hb
      | transportError =>
        simp only [runStepLoop, if_neg hm] at hb
        by_cases hf : onFail = "fallback" ∧ fb ≠ ""
        · rw [if_pos hf] at hb
          exact ihs rc fb hb
        · rw [if_neg hf] at hb
          by_cases hs : onFail = "skip"
          · simp [hs] at hb
          · rw [if_neg hs, apply_ite StepLoopOut.backoffs] at hb
            by_cases h2 : rc + 1 ≤ mr
            · rw [if_pos h2] at hb
              rcases List.mem_cons.mp hb with hb | hb
              · exact ⟨rc + 1, Nat.succ_le_succ (Nat.zero_le rc), h2, hb⟩
              · exact ihs (rc + 1) adv hb
            · rw [if_neg h2] at hb
              exact ihs (rc + 1) adv hb
      | rejected =>
        simp only [runStepLoop, if_neg hm] at hb
        by_cases hf : onFail = "fallback" ∧ fb ≠ ""
        · rw [if_pos hf] at hb
          exact ihs rc fb hb
        · rw [if_neg hf] at hb
          by_cases hs : onFail = "skip"
          · simp [hs] at hb
          · rw [if_neg hs, apply_ite StepLoopOut.backoffs] at hb
            by_cases h2 : rc + 1 ≤ mr
            · rw [if_pos h2] at hb
              rcases List.mem_cons.mp hb with hb | hb
              · exact ⟨rc + 1, Nat.succ_le_succ (Nat.zero_le rc), h2, hb⟩
              · exact ihs (rc + 1) adv hb
            · rw [if_neg h2] at hb
              exact ihs (rc + 1) adv hb
      | outOfTime =>
        simp only [runStepLoop, if_neg hm] at hb
        by_cases hf : onFail = "fallback" ∧ fb ≠ ""
        · rw [if_pos hf] at hb
          exact ihs rc fb hb
        · rw [if_neg hf] at hb
          by_cases hs : onFail = "skip"
          · simp [hs] at hb
          · rw [if_neg hs, apply_ite StepLoopOut.backoffs] at hb
            by_cases h2 : rc + 1 ≤ mr
            · rw [if_pos h2] at hb
              rcases List.mem_cons.mp hb with hb | hb
              · exact ⟨rc + 1, Nat.succ_le_succ (Nat.zero_le rc), h2, hb⟩
              · exact ihs (rc + 1) adv hb
            · rw [if_neg h2] at hb
              exact ihs (rc + 1) adv hb
      | runOneLink =>
        simp only [runStepLoop, if_neg hm] at hb
        by_cases hf : onFail = "fallback" ∧ fb ≠ ""
        · rw [if_pos hf] at hb
          exact ihs rc fb hb
        · rw [if_neg hf] at hb
          by_cases hs : onFail = "skip"
          · simp [hs] at hb
          · rw [if_neg hs, apply_ite StepLoopOut.backoffs] at hb
            by_cases h2 : rc + 1 ≤ mr
            · rw [if_pos h2] at hb
              rcases List.mem_cons.mp hb with hb | hb
              · exact ⟨rc + 1, Nat.succ_le_succ (Nat.zero_le rc), h2, hb⟩
              · exact ihs (rc + 1) adv hb
            · rw [if_neg h2] at hb
              exact ihs (rc + 1) adv hb

/-- Witness for C7: one retried poll timeout waited exactly 2 seconds. -/
theorem claim_c7_backoff_values_witness :
    (∃ a, 1 ≤ a ∧ a ≤ 3 ∧ 2 = min (2 ^ a) 30)
    ∧ (runStepLoop "retry" "" 5 0 "x"
        (List.replicate 5 AttemptResult.pollTimeout ++ [AttemptResult.success []])).backoffs =
      [2, 4, 8, 16, 30] :=
  claim_c7_backoff_values "" "" 3 0 "a"
    [AttemptResult.pollTimeout, AttemptResult.success []] 2 (by decide)

/-! ### Helper lemmas about the sequence loop -/

/-- Every branch of a step resolution records the step's index as attempted. -/
lemma resolveStep_attempted (mr idx : Nat) (step : StepSpec) (script : List AttemptResult)
    (st : SeqState) :
    (resolveStep mr idx step script st).attempted = st.attempted ++ [idx] := by
  cases hres : (runStepLoop step.on_fail step.fallback_adversary_id mr 0
      step.adversary_id script).result with
  | completed f => rw [resolveStep_completed_eq mr idx step script st f hres]
  | skippedEarly e => rw [resolveStep_skipped_eq mr idx step script st e hres]
  | exhausted =>
    by_cases hsk : step.on_fail = "skip"
    · rw [resolveStep_exhausted_skip_eq mr idx step script st hres hsk]
    · rw [resolveStep_exhausted_spec mr idx step script st hres hsk]
  | outOfFuel => rw [resolveStep_outOfFuel_eq mr idx step script st hres]

/-- The sequence loop never forgets an already-attempted index. -/
lemma runSeq_attempted_extends (mr : Nat) :
    ∀ (steps : List (StepSpec × List AttemptResult)) (idx : Nat) (st : SeqState) (x : Nat),
      x ∈ st.attempted → x ∈ (runSeq mr idx st steps).attempted := by
  intro steps
  induction steps with
  | nil => intro idx st x hx; exact hx
  | cons sc rest ih =>
    intro idx st x hx
    have hx2 : x ∈ (resolveStep mr idx sc.1 sc.2 st).attempted := by
      rw [resolveStep_attempted]
      exact List.mem_append_left _ hx
    by_cases hc : (resolveStep mr idx sc.1 sc.2 st).aborted || (resolveStep mr idx sc.1 sc.2 st).stuck
    · simp only [runSeq, hc, if_true]
      exact hx2
    · simp only [runSeq, hc, if_false]
      exact ih (idx + 1) _ x hx2

/-! ### Claim C1: critical failures halt the run, non-critical ones do not -/

/-- Claim C1: when a step's final outcome is Failed (its retry loop exhausted
with `on_fail != skip`), the run halts exactly when the step is critical —
after a critical failure no later step is attempted, after a non-critical
failure the next step is attempted. -/
theorem claim_c1_critical_abort (mr idx : Nat) (st : SeqState) (step : StepSpec)
    (script : List AttemptResult) (rest : List (StepSpec × List AttemptResult))
    (hab : st.aborted = false) (hst : st.stuck = false)
    (hres : (runStepLoop step.on_fail step.fallback_adversary_id mr 0
      step.adversary_id script).result = StepLoopResult.exhausted)
    (hsk : step.on_fail ≠ "skip") :
    (step.critical = true →
      (runSeq mr idx st ((step, script) :: rest)).attempted = st.attempted ++ [idx])
    ∧ (step.critical = false → rest ≠ [] →
      idx + 1 ∈ (runSeq mr idx st ((step, script) :: rest)).attempted) := by
  have hspec := resolveStep_exhausted_spec mr idx step script st hres hsk
  constructor
  · intro hcrit
    have habort : ((resolveStep mr idx step script st).aborted ||
        (resolveStep mr idx step script st).stuck) = true := by
      rw [hspec]
      simp [hcrit]
    simp only [runSeq, habort, if_true]
    rw [hspec]
  · intro hcrit hne
    have hnab : ((resolveStep mr idx step script st).aborted ||
        (resolveStep mr idx step script st).stuck) = false := by
      rw [hspec]
      simp [hab, hst, hcrit]
    simp only [runSeq, hnab, if_false]
    cases rest with
    | nil => exact absurd rfl hne
    | cons hd tl =>
      have hmem : idx + 1 ∈ (resolveStep mr (idx + 1) hd.1 hd.2
          (resolveStep mr idx step script st)).attempted := by
        rw [resolveStep_attempted]
        exact List.mem_append_right _ (List.mem_singleton.mpr rfl)
      by_cases hh : ((resolveStep mr (idx + 1) hd.1 hd.2 (resolveStep mr idx step script st)).aborted ||
          (resolveStep mr (idx + 1) hd.1 hd.2 (resolveStep mr idx step script st)).stuck) = true
      · simp only [runSeq, hh, if_true]
        exact hmem
      · simp only [runSeq, hh, if_false]
        exact runSeq_attempted_extends mr tl (idx + 2) _ (idx + 1) hmem

/-- Witness for C1: a critical step failing after exhausting its retries stops
the run at index 1. -/
theorem claim_c1_critical_abort_witness :
    (runSeq 0 1 initState [(⟨"A", "a", "", "", true⟩, [AttemptResult.transportError]),
        (⟨"C", "c", "", "", false⟩, [AttemptResult.success []])]).attempted =
      initState.attempted ++ [1] := by
  have h := claim_c1_critical_abort 0 1 initState ⟨"A", "a", "", "", true⟩
    [AttemptResult.transportError]
    [(⟨"C", "c", "", "", false⟩, [AttemptResult.success []])]
    rfl rfl (by decide) (by decide)
  exact h.1 rfl

/-! ### Claim C3: terminal run status -/

/-- A resolved step preserves the invariant that an aborted state has a
non-empty failed list (the abort flag is only ever set right after a failed
outcome is appended). -/
lemma resolveStep_aborted_failed (mr idx : Nat) (step : StepSpec)
    (script : List AttemptResult) (st : SeqState)
    (hp : st.aborted = true → st.failed ≠ []) :
    (resolveStep mr idx step script st).aborted = true →
      (resolveStep mr idx step script st).failed ≠ [] := by
  cases hres : (runStepLoop step.on_fail step.fallback_adversary_id mr 0
      step.adversary_id script).result with
  | completed f =>
    rw [resolveStep_completed_eq mr idx step script st f hres]
    intro h
    exact hp h
  | skippedEarly e =>
    rw [resolveStep_skipped_eq mr idx step script st e hres]
    intro h
    simp
  | exhausted =>
    by_cases hsk : step.on_fail = "skip"
    · rw [resolveStep_exhausted_skip_eq mr idx step script st hres hsk]
      intro h
      exact hp h
    · rw [resolveStep_exhausted_spec mr idx step script st hres hsk]
      intro h
      simp
  | outOfFuel =>
    rw [resolveStep_outOfFuel_eq mr idx step script st hres]
    intro h
    exact hp h

/-- The run-level invariant: if the final state is aborted, some failed
outcome was recorded. -/
lemma runSeq_aborted_failed (mr : Nat) :
    ∀ (steps : List (StepSpec × List AttemptResult)) (idx : Nat) (st : SeqState),
      (st.aborted = true → st.failed ≠ []) →
      (runSeq mr idx st steps).aborted = true → (runSeq mr idx st steps).failed ≠ [] := by
  intro steps
  induction steps with
  | nil => intro idx st hp; exact hp
  | cons sc rest ih =>
    intro idx st hp
    have hp2 := resolveStep_aborted_failed mr idx sc.1 sc.2 st hp
    by_cases hc : (resolveStep mr idx sc.1 sc.2 st).aborted || (resolveStep mr idx sc.1 sc.2 st).stuck
    · simp only [runSeq, hc, if_true]
      exact hp2
    · simp only [runSeq, hc, if_false]
      exact ih (idx + 1) _ hp2

/-- Counterexample to claim C3: an aborted run (critical step failed, the
second step never attempted) and a partially-failed run that executed every
step receive the same terminal status `"failed"` — the recorded status does
not distinguish them. -/
theorem claim_c3_counterexample :
    (sequenceCampaign 0 [(⟨"A", "a", "", "", true⟩, [AttemptResult.transportError]),
        (⟨"C", "c", "", "", false⟩, [AttemptResult.success []])]).aborted = true
    ∧ (sequenceCampaign 0 [(⟨"A", "a", "", "", true⟩, [AttemptResult.transportError]),
        (⟨"C", "c", "", "", false⟩, [AttemptResult.success []])]).attempted = [1]
    ∧ (sequenceCampaign 0 [(⟨"A", "a", "", "", false⟩, [AttemptResult.transportError]),
        (⟨"C", "c", "", "", false⟩, [AttemptResult.success []])]).aborted = false
    ∧ (sequenceCampaign 0 [(⟨"A", "a", "", "", false⟩, [AttemptResult.transportError]),
        (⟨"C", "c", "", "", false⟩, [AttemptResult.success []])]).completed.length = 1
    ∧ jobStatus (sequenceCampaign 0 [(⟨"A", "a", "", "", true⟩, [AttemptResult.transportError]),
        (⟨"C", "c", "", "", false⟩, [AttemptResult.success []])]) =
      jobStatus (sequenceCampaign 0 [(⟨"A", "a", "", "", false⟩, [AttemptResult.transportError]),
        (⟨"C", "c", "", "", false⟩, [AttemptResult.success []])]) := by
  decide

/-- Claim C3 as amended: the terminal status is binary — `"completed"` exactly
when `failed_steps` is empty and `"failed"` otherwise; an aborted run always
reports `"failed"`, the same status as a partially-failed run. -/
theorem claim_c3_amended_binary_status (mr : Nat)
    (steps : List (StepSpec × List AttemptResult)) :
    (jobStatus (sequenceCampaign mr steps) = "completed" ↔
      (sequenceCampaign mr steps).failed = [])
    ∧ ((sequenceCampaign mr steps).aborted = true →
      jobStatus (sequenceCampaign mr steps) = "failed") := by
  have hinv := runSeq_aborted_failed mr steps 1 initState
    (by intro h; simp [initState] at h)
  constructor
  · unfold jobStatus runSuccess
    by_cases hf : (sequenceCampaign mr steps).failed = []
    · simp [hf]
    · have hlen : ¬ (sequenceCampaign mr steps).failed.length = 0 := by
        simpa [List.length_eq_zero] using hf
      simp [hlen, hf]
  · intro hab
    have hne : (sequenceCampaign mr steps).failed ≠ [] := hinv hab
    unfold jobStatus runSuccess
    have hlen : ¬ (sequenceCampaign mr steps).failed.length = 0 := by
      simpa [List.length_eq_zero] using hne
    simp [hlen]

/-- Witness for the amended C3 on a concrete aborted run. -/
theorem claim_c3_amended_binary_status_witness :
    jobStatus (sequenceCampaign 0
      [(⟨"A", "a", "", "", true⟩, [AttemptResult.transportError])]) = "failed" :=
  (claim_c3_amended_binary_status 0
    [(⟨"A", "a", "", "", true⟩, [AttemptResult.transportError])]).2 (by decide)

/-! ### Claim C8: outcome-list growth -/

/-- One step resolution grows the two outcome lists by at most one entry. -/
lemma resolveStep_outcomes_le (mr idx : Nat) (step : StepSpec)
    (script : List AttemptResult) (st : SeqState) :
    st.completed.length + st.failed.length ≤
      (resolveStep mr idx step script st).completed.length +
        (resolveStep mr idx step script st).failed.length
    ∧ (resolveStep mr idx step script st).completed.length +
        (resolveStep mr idx step script st).failed.length ≤
      st.completed.length + st.failed.length + 1 := by
  cases hres : (runStepLoop step.on_fail step.fallback_adversary_id mr 0
      step.adversary_id script).result with
  | completed f =>
    rw [resolveStep_completed_eq mr idx step script st f hres]
    constructor
    · simp only [List.length_append, List.length_singleton]
      omega
    · simp only [List.length_append, List.length_singleton]
      omega
  | skippedEarly e =>
    rw [resolveStep_skipped_eq mr idx step script st e hres]
    constructor
    · simp only [List.length_append, List.length_singleton]
      omega
    · simp only [List.length_append, List.length_singleton]
      omega
  | exhausted =>
    by_cases hsk : step.on_fail = "skip"
    · rw [resolveStep_exhausted_skip_eq mr idx step script st hres hsk]
      exact ⟨Nat.le_refl _, Nat.le_succ _⟩
    · rw [resolveStep_exhausted_spec mr idx step script st hres hsk]
      constructor
      · simp only [List.length_append, List.length_singleton]
        omega
      · simp only [List.length_append, List.length_singleton]
        omega
  | outOfFuel =>
    rw [resolveStep_outOfFuel_eq mr idx step script st hres]
    exact ⟨Nat.le_refl _, Nat.le_succ _⟩

/-- Counterexample to claim C8: a step with `on_fail == skip` whose retries
are exhausted by poll timeouts resolves the step (the run terminates, the
step was attempted) yet adds no entry to either outcome list. -/
theorem claim_c8_counterexample :
    (sequenceCampaign 3 [(⟨"s", "a", "skip", "", false⟩,
        List.replicate 4 AttemptResult.pollTimeout)]) =
      ⟨[], [], [], [1], false, false⟩ := by
  decide

/-- Claim C8 as amended: each resolved step adds at most one entry to
`completed_steps` or `failed_steps` (exactly one unless the loop ran out of
script, or the step had `on_fail == skip` and exhausted its retries, which
adds none), and the combined length never exceeds the number of steps. -/
theorem claim_c8_amended_outcome_growth (mr : Nat)
    (steps : List (StepSpec × List AttemptResult)) (idx : Nat) (step : StepSpec)
    (script : List AttemptResult) (st : SeqState) :
    ((sequenceCampaign mr steps).completed.length +
        (sequenceCampaign mr steps).failed.length ≤ steps.length)
    ∧ (st.completed.length + st.failed.length ≤
        (resolveStep mr idx step script st).completed.length +
          (resolveStep mr idx step script st).failed.length)
    ∧ ((resolveStep mr idx step script st).completed.length +
          (resolveStep mr idx step script st).failed.length ≤
        st.completed.length + st.failed.length + 1)
    ∧ ((runStepLoop step.on_fail step.fallback_adversary_id mr 0
          step.adversary_id script).result ≠ StepLoopResult.outOfFuel →
        ¬((runStepLoop step.on_fail step.fallback_adversary_id mr 0
          step.adversary_id script).result = StepLoopResult.exhausted ∧
            step.on_fail = "skip") →
        (resolveStep mr idx step script st).completed.length +
            (resolveStep mr idx step script st).failed.length =
          st.completed.length + st.failed.length + 1) := by
  have hbound : ∀ (rest : List (StepSpec × List AttemptResult)) (j : Nat) (s : SeqState),
      (runSeq mr j s rest).completed.length + (runSeq mr j s rest).failed.length ≤
        s.completed.length + s.failed.length + rest.length := by
    intro rest
    induction rest with
    | nil =>
      intro j s
      simp only [runSeq, List.length_nil]
      omega
    | cons sc tl ih =>
      intro j s
      have hone := (resolveStep_outcomes_le mr j sc.1 sc.2 s).2
      by_cases hc : (resolveStep mr j sc.1 sc.2 s).aborted || (resolveStep mr j sc.1 sc.2 s).stuck
      · simp only [runSeq, hc, if_true, List.length_cons]
        omega
      · simp only [runSeq, hc, Bool.false_eq_true, if_false, List.length_cons]
        have hrec := ih (j + 1) (resolveStep mr j sc.1 sc.2 s)
        omega
  refine ⟨?_, (resolveStep_outcomes_le mr idx step script st).1,
    (resolveStep_outcomes_le mr idx step script st).2, ?_⟩
  · have := hbound steps 1 initState
    simpa [initState, sequenceCampaign] using this
  · intro hfuel hnsk
    cases hres : (runStepLoop step.on_fail step.fallback_adversary_id mr 0
        step.adversary_id script).result with
    | completed f =>
      rw [resolveStep_completed_eq mr idx step script st f hres]
      simp only [List.length_append, List.length_singleton]
      omega
    | skippedEarly e =>
      rw [resolveStep_skipped_eq mr idx step script st e hres]
      simp only [List.length_append, List.length_singleton]
      omega
    | exhausted =>
      have hsk : step.on_fail ≠ "skip" := fun h => hnsk ⟨hres, h⟩
      rw [resolveStep_exhausted_spec mr idx step script st hres hsk]
      simp only [List.length_append, List.length_singleton]
      omega
    | outOfFuel => exact absurd hres hfuel

/-- Witness for the amended C8's exactly-one clause at a concrete input. -/
theorem claim_c8_amended_outcome_growth_witness :
    (resolveStep 0 1 ⟨"A", "a", "", "", false⟩ [AttemptResult.transportError]
        initState).completed.length +
      (resolveStep 0 1 ⟨"A", "a", "", "", false⟩ [AttemptResult.transportError]
        initState).failed.length =
      initState.completed.length + initState.failed.length + 1 :=
  (claim_c8_amended_outcome_growth 0 [] 1 ⟨"A", "a", "", "", false⟩
    [AttemptResult.transportError] initState).2.2.2 (by decide) (by decide)

end CalderaSeq
